import Mathlib

/-!
Shallow embedding of `src/main.js` of the music-visualizer repository.

The source is a single browser script: a play-button click handler that
initializes a Web Audio `AnalyserNode` (fftSize 8192), validates that a file
was chosen, kicks off an asynchronous file read / audio decode, creates a
sphere mesh and starts the `animate` loop; the `animate` function samples
frequency and time-domain byte arrays from the analyser, scales the mesh by
the average frequency, displaces every vertex from a lazily cached rest pose
by the time-domain waveform, and recolors the mesh from the RMS volume.

Numbers are modelled by exact rationals (`ℚ`); `Math.sqrt` is modelled by
`Real.sqrt`.  Byte arrays (`Uint8Array`) are `List ℕ` whose entries are
0..255 where a claim needs that bound.  The DOM, WebGL renderer and the
audio graph are the external collaborators of the spec; only the state and
effects the claims mention are modelled.
-/

namespace MusicVisualizer

/-- Source line 108: `const radiusScaleFactor = 0.015`. -/
def radiusScaleFactor : ℚ := 0.015

/-- Source line 109: `const waveformScaleFactor = 0.035`. -/
def waveformScaleFactor : ℚ := 0.035

/-- The two scheduler states of the spec's Frame Scheduler: the animation
loop has either not been started, or runs indefinitely. -/
inductive SchedulerState where
  | idle
  | running
deriving DecidableEq, Repr

/-- Observable side effects of the handlers in `src/main.js`, named after the
source calls that emit them.  `retryDecode` is never emitted by any handler;
it exists so that "no retry is attempted" is a statable property. -/
inductive Effect where
  /-- line 33: `alert("Please upload an audio file first.")` -/
  | alertUser
  /-- line 87: `console.error("Error decoding audio data:", err)` -/
  | logDecodeError
  /-- line 91: `console.error('Error reading file:', error)` -/
  | logReadError
  /-- line 85: `soundSource.start(0)` -/
  | startAudio
  /-- line 46: `animate()` — the tick loop is started -/
  | startAnimation
  /-- line 140: `renderer.render(scene, camera)` -/
  | draw
  /-- a decode retry; nothing in the source performs one -/
  | retryDecode
deriving DecidableEq, Repr

/-- The Web Audio analyser as configured by the source: only its `fftSize`
(line 29) matters to the claims. -/
structure AnalyserNode where
  fftSize : ℕ
deriving DecidableEq, Repr

/-- Modelled from the spec: the Web Audio `AnalyserNode.frequencyBinCount`
property (used at lines 101-102) is not code of this repository; per the
spec, bin resolution B = fftSize/2. -/
def AnalyserNode.frequencyBinCount (a : AnalyserNode) : ℕ := a.fftSize / 2

/-- The module-level mutable state of `src/main.js` that the claims are
about: `audioCtx`/`analyser` (line 9, `none` until the first click) and
whether the animation loop has been started. -/
structure AppState where
  analyser : Option AnalyserNode
  sched : SchedulerState
deriving DecidableEq, Repr

/-- State before any click: `let audioCtx, analyser, shape` (line 9) leaves
them undefined, and no animation loop is running. -/
def initialState : AppState := { analyser := none, sched := .idle }

/-- Source lines 25-47, the play-button click handler:
initialize the audio context and analyser on first click (fftSize 8192);
if no file is selected, alert the user and return;
otherwise hide the form, start reading/decoding the file, create the sphere
and start the animation loop.  `hasFile` models `fileInput.files[0]`
being present. -/
def handleClick (hasFile : Bool) (s : AppState) : AppState × List Effect :=
  let s1 := if s.analyser.isNone then { s with analyser := some { fftSize := 8192 } } else s
  if !hasFile then
    (s1, [Effect.alertUser])
  else
    ({ s1 with sched := SchedulerState.running }, [Effect.startAnimation])

/-- Source lines 80-85, the `decodeAudioData` success continuation: wire the
decoded buffer into the analyser and start playback.  The scheduler state is
untouched (the loop was started by the click handler). -/
def onDecodeSuccess (s : AppState) : AppState × List Effect :=
  (s, [Effect.startAudio])

/-- Source lines 86-88, the `decodeAudioData` `.catch` handler: log the
error to the console and nothing else — no retry, no user alert, no state
change. -/
def onDecodeError (s : AppState) : AppState × List Effect :=
  (s, [Effect.logDecodeError])

/-- Source lines 90-92, the `FileReader` `onerror` handler: log only. -/
def onReadError (s : AppState) : AppState × List Effect :=
  (s, [Effect.logReadError])

/-- Source lines 101-102: both per-tick arrays are allocated with length
`analyser.frequencyBinCount` (a fresh `Uint8Array` is zero-filled; the
analyser then fills the same-length arrays in place). -/
def mkFrameArrays (a : AnalyserNode) : List ℕ × List ℕ :=
  (List.replicate a.frequencyBinCount 0, List.replicate a.frequencyBinCount 0)

/-- Source line 111: `frequencyData.reduce((a, b) => a + b, 0) / frequencyData.length`. -/
def averageFrequency (frequencyData : List ℕ) : ℚ :=
  (frequencyData.sum : ℚ) / frequencyData.length

/-- Source line 112: `shape.scale.setScalar(1 + averageFrequency * radiusScaleFactor)`. -/
def uniformScale (frequencyData : List ℕ) : ℚ :=
  1 + averageFrequency frequencyData * radiusScaleFactor

/-- Source line 125: `timeDomainData[i % timeDomainData.length] / 128 - 1`. -/
def timeDomainValue (timeDomainData : List ℕ) (i : ℕ) : ℚ :=
  (timeDomainData.getD (i % timeDomainData.length) 0 : ℚ) / 128 - 1

/-- The per-vertex factor applied to every axis of vertex `i`
(lines 128-130): `1 + timeDomainValue * waveformScaleFactor`. -/
def vertexMultiplier (timeDomainData : List ℕ) (i : ℕ) : ℚ :=
  1 + timeDomainValue timeDomainData i * waveformScaleFactor

/-- The same factor as a function of the raw time-domain byte value `v`:
`1 + (v / 128 - 1) * waveformScaleFactor`. -/
def byteMultiplier (v : ℕ) : ℚ :=
  1 + ((v : ℚ) / 128 - 1) * waveformScaleFactor

/-- The mesh as the claims see it: the flat xyz position array of the sphere
geometry (`positionAttribute.array`), the lazily captured rest-pose copy
(`geometry.userData.originalPositions`, absent until the first `animate`
call) and the aggregate scale transform (`shape.scale`). -/
structure Mesh where
  positions : List ℚ
  originalPositions : Option (List ℚ)
  scale : ℚ
deriving DecidableEq, Repr

/-- Source line 117: `geometry.userData.originalPositions || positionAttribute.array.slice()` —
the cached rest pose if present, else a copy of the current live positions. -/
def captureRestPose (m : Mesh) : List ℚ :=
  m.originalPositions.getD m.positions

/-- One iteration of the vertex loop body, source lines 123-131: for vertex
`i`, `index = i * 3`, and the three components at `index`, `index+1`,
`index+2` are overwritten with `originalPositions[·] * (1 + timeDomainValue * waveformScaleFactor)`. -/
def deformStep (orig : List ℚ) (timeDomainData : List ℕ) (arr : List ℚ) (i : ℕ) : List ℚ :=
  let index := i * 3
  let mult := vertexMultiplier timeDomainData i
  ((arr.set index (orig.getD index 0 * mult)).set (index + 1)
      (orig.getD (index + 1) 0 * mult)).set (index + 2)
    (orig.getD (index + 2) 0 * mult)

/-- The whole vertex loop, source line 123: `for (let i = 0; i < positionAttribute.count; i++)`. -/
def deformLoop (orig : List ℚ) (timeDomainData : List ℕ) (arr : List ℚ) (count : ℕ) : List ℚ :=
  (List.range count).foldl (deformStep orig timeDomainData) arr

/-- One `animate` tick's effect on the mesh (source lines 97-141): set the
uniform scale from the average frequency, capture the rest pose on first
call, and run the vertex deformation loop over all
`positionAttribute.count = array.length / 3` vertices.  The frequency and
time-domain arrays are the tick's `AnalysisFrame`. -/
def animateTick (frequencyData timeDomainData : List ℕ) (m : Mesh) : Mesh :=
  let orig := captureRestPose m
  { positions := deformLoop orig timeDomainData m.positions (m.positions.length / 3)
    originalPositions := some orig
    scale := uniformScale frequencyData }

/-- Iterated ticks: the scheduler re-runs `animate` once per frame; each
element of `frames` is one tick's (frequencyData, timeDomainData) pair. -/
def runTicks (frames : List (List ℕ × List ℕ)) (m : Mesh) : Mesh :=
  frames.foldl (fun mesh fr => animateTick fr.1 fr.2 mesh) m

/-- Source line 134: the mean of the squared frequency bytes (the value
under the square root). -/
def meanSquare (frequencyData : List ℕ) : ℚ :=
  (((frequencyData.map (fun v => v * v)).sum : ℕ) : ℚ) / frequencyData.length

/-- Source line 134: `Math.sqrt(frequencyData.reduce((sum, value) => sum + value * value, 0) / frequencyData.length)`. -/
noncomputable def volume (frequencyData : List ℕ) : ℝ :=
  Real.sqrt (meanSquare frequencyData)

/-- Source lines 144-147, `getColorFromVolume`: hue = volume / 255, and the
color is handed to the renderer as HSL (hue, saturation 1, lightness 0.5);
the HSL→RGB conversion itself is `THREE.Color().setHSL`, an external
library collaborator, so the color is represented by its HSL parameters. -/
noncomputable def getColorFromVolume (volume : ℝ) : ℝ × ℚ × ℚ :=
  (volume / 255, 1, 0.5)

/-- Source lines 134-136: the color set on the mesh material each tick. -/
noncomputable def colorFor (frequencyData : List ℕ) : ℝ × ℚ × ℚ :=
  getColorFromVolume (volume frequencyData)

/-! ## Helper lemmas about the vertex loop -/

lemma vertexMultiplier_eq_byteMultiplier (td : List ℕ) (i : ℕ) :
    vertexMultiplier td i = byteMultiplier (td.getD (i % td.length) 0) := rfl

lemma deformStep_length (orig : List ℚ) (td : List ℕ) (arr : List ℚ) (i : ℕ) :
    (deformStep orig td arr i).length = arr.length := by
  simp [deformStep]

lemma deformLoop_succ (orig : List ℚ) (td : List ℕ) (arr : List ℚ) (n : ℕ) :
    deformLoop orig td arr (n + 1) = deformStep orig td (deformLoop orig td arr n) n := by
  simp [deformLoop, List.range_succ]

lemma deformLoop_length (orig : List ℚ) (td : List ℕ) (arr : List ℚ) (count : ℕ) :
    (deformLoop orig td arr count).length = arr.length := by
  induction count with
  | zero => rfl
  | succ n ih => rw [deformLoop_succ, deformStep_length, ih]

lemma deformStep_getElem? (orig : List ℚ) (td : List ℕ) (arr : List ℚ) (i j : ℕ) :
    (deformStep orig td arr i)[j]? =
      if (j = i * 3 ∨ j = i * 3 + 1 ∨ j = i * 3 + 2) ∧ j < arr.length then
        some (orig.getD j 0 * vertexMultiplier td i)
      else arr[j]? := by
  unfold deformStep
  simp only [List.getElem?_set, List.length_set]
  split_ifs with h1 h2 h3 h4 h5 h6 h7 <;> first
    | rfl
    | omega
    | (exfalso; omega)
    | (subst_vars; rfl)
    | (exact (List.getElem?_eq_none (by omega)).symm)

lemma deformLoop_getElem? (orig : List ℚ) (td : List ℕ) (arr : List ℚ) (count j : ℕ) :
    (deformLoop orig td arr count)[j]? =
      if j < count * 3 ∧ j < arr.length then
        some (orig.getD j 0 * vertexMultiplier td (j / 3))
      else arr[j]? := by
  induction count with
  | zero => simp [deformLoop]
  | succ n ih =>
    rw [deformLoop_succ, deformStep_getElem?, deformLoop_length, ih]
    by_cases htrip : j = n * 3 ∨ j = n * 3 + 1 ∨ j = n * 3 + 2
    · by_cases hlen : j < arr.length
      · have hj3 : j / 3 = n := by omega
        have hlt : j < (n + 1) * 3 := by omega
        simp [htrip, hlen, hlt, hj3]
      · simp [hlen]
    · have hiff : (j < (n + 1) * 3 ∧ j < arr.length) ↔ (j < n * 3 ∧ j < arr.length) := by
        constructor <;> (intro h; exact ⟨by omega, h.2⟩)
      simp only [htrip, false_and, if_false]
      by_cases hn : j < n * 3 ∧ j < arr.length
      · rw [if_pos hn, if_pos (hiff.mpr hn)]
      · rw [if_neg hn, if_neg (fun h => hn (hiff.mp h))]

lemma captureRestPose_of_some (m : Mesh) (r : List ℚ) (h : m.originalPositions = some r) :
    captureRestPose m = r := by
  rw [captureRestPose, h]; rfl

lemma captureRestPose_of_none (m : Mesh) (h : m.originalPositions = none) :
    captureRestPose m = m.positions := by
  rw [captureRestPose, h]; rfl

lemma vertexMultiplier_of_all_128 (td : List ℕ) (htd : 0 < td.length)
    (hall : ∀ v ∈ td, v = 128) (i : ℕ) :
    vertexMultiplier td i = 1 := by
  have hlt : i % td.length < td.length := Nat.mod_lt _ htd
  have hv : td.getD (i % td.length) 0 = 128 := by
    rw [List.getD_eq_getElem?_getD, List.getElem?_eq_getElem hlt]
    exact hall _ (List.getElem_mem hlt)
  rw [vertexMultiplier, timeDomainValue, hv]
  norm_num

lemma animateTick_zero_signal (fd td : List ℕ) (m : Mesh) (n : ℕ)
    (h1 : m.positions.length = 3 * n) (h2 : (captureRestPose m).length = 3 * n)
    (htd : 0 < td.length) (hall : ∀ v ∈ td, v = 128) :
    (animateTick fd td m).positions = captureRestPose m := by
  apply List.ext_getElem?
  intro j
  show (deformLoop (captureRestPose m) td m.positions (m.positions.length / 3))[j]? = _
  rw [deformLoop_getElem?]
  by_cases hj : j < 3 * n
  · rw [if_pos ⟨by omega, by omega⟩]
    rw [vertexMultiplier_of_all_128 td htd hall, mul_one]
    rw [List.getD_eq_getElem?_getD,
      List.getElem?_eq_getElem (show j < (captureRestPose m).length by omega)]
    simp
  · rw [if_neg (by omega)]
    rw [List.getElem?_eq_none (by omega), List.getElem?_eq_none (by omega)]

lemma runTicks_nil (m : Mesh) : runTicks [] m = m := rfl

lemma runTicks_cons (fr : List ℕ × List ℕ) (frames : List (List ℕ × List ℕ)) (m : Mesh) :
    runTicks (fr :: frames) m = runTicks frames (animateTick fr.1 fr.2 m) := rfl

lemma runTicks_originalPositions (frames : List (List ℕ × List ℕ)) (m : Mesh) (r : List ℚ)
    (h : m.originalPositions = some r) :
    (runTicks frames m).originalPositions = some r := by
  induction frames generalizing m with
  | nil => exact h
  | cons fr frames ih =>
    rw [runTicks_cons]
    apply ih
    show some (captureRestPose m) = some r
    rw [captureRestPose_of_some m r h]

lemma runTicks_zero_fixed (frames : List (List ℕ × List ℕ)) (orig : List ℚ) (n : ℕ)
    (ho : orig.length = 3 * n)
    (hall : ∀ fr ∈ frames, 0 < (fr.2 : List ℕ).length ∧ ∀ v ∈ fr.2, v = 128) :
    ∀ m : Mesh, m.positions = orig → m.originalPositions = some orig →
      (runTicks frames m).positions = orig := by
  induction frames with
  | nil => intro m h1 _; rw [runTicks_nil]; exact h1
  | cons fr frames ih =>
    intro m h1 h2
    rw [runTicks_cons]
    have hcap : captureRestPose m = orig := captureRestPose_of_some m orig h2
    have hfr := hall fr (List.mem_cons_self fr frames)
    have hpos : (animateTick fr.1 fr.2 m).positions = orig := by
      rw [← hcap]
      exact animateTick_zero_signal fr.1 fr.2 m n (by rw [h1]; exact ho)
        (by rw [hcap]; exact ho) hfr.1 hfr.2
    refine ih (fun f hf => hall f (List.mem_cons_of_mem _ hf)) _ hpos ?_
    show some (captureRestPose m) = some orig
    rw [hcap]

/-! ## Claim theorems -/

/-- C1, counterexample: the claim "decode failure leaves the Scheduler Idle
and the visualization never starts" is false on the code.  Starting from the
initial state, clicking play with a file selected and the decode later
failing leaves the scheduler Running (the click handler called `animate()`
at line 46 without waiting for the decode), even though the failure is
indeed only logged. -/
theorem C1_decode_error_counterexample :
    (onDecodeError (handleClick true initialState).1).1.sched = SchedulerState.running
    ∧ (onDecodeError (handleClick true initialState).1).2 = [Effect.logDecodeError] := by
  decide

/-- C1, amended: if decoding the byte buffer fails, the failure is only
logged to the console (a diagnostic channel, not a user alert), no retry is
attempted, and the decode failure changes no state — but the click handler
has already started the animation loop unconditionally before the decode
result arrives, so the Scheduler is Running and draw calls continue rather
than never starting. -/
theorem C1_decode_error_logged_not_retried (s : AppState) :
    onDecodeError s = (s, [Effect.logDecodeError])
    ∧ Effect.retryDecode ∉ (onDecodeError s).2
    ∧ Effect.alertUser ∉ (onDecodeError s).2
    ∧ (handleClick true s).1.sched = SchedulerState.running := by
  refine ⟨rfl, ?_, ?_, rfl⟩ <;> simp [onDecodeError]

/-- C8: if the start trigger fires with no audio byte buffer provided, the
click handler's synchronous effect is exactly the blocking `alert`, the
Scheduler stays Idle, and neither a draw nor an animation start occurs. -/
theorem C8_missing_input_idle (s : AppState) (h : s.sched = SchedulerState.idle) :
    (handleClick false s).1.sched = SchedulerState.idle
    ∧ (handleClick false s).2 = [Effect.alertUser]
    ∧ Effect.draw ∉ (handleClick false s).2
    ∧ Effect.startAnimation ∉ (handleClick false s).2 := by
  have hsched : (handleClick false s).1.sched = s.sched := by
    unfold handleClick
    by_cases hs : s.analyser.isNone <;> simp [hs]
  refine ⟨by rw [hsched, h], rfl, ?_, ?_⟩ <;> simp [handleClick]

/-- C8 witness: the missing-input path from the initial state. -/
theorem C8_missing_input_idle_witness :
    initialState.sched = SchedulerState.idle
    ∧ ((handleClick false initialState).1.sched = SchedulerState.idle
      ∧ (handleClick false initialState).2 = [Effect.alertUser]
      ∧ Effect.draw ∉ (handleClick false initialState).2
      ∧ Effect.startAnimation ∉ (handleClick false initialState).2) :=
  ⟨rfl, C8_missing_input_idle initialState rfl⟩

/-- C9: the bin count B is the configured FFT size divided by 2 (4096 for
the configured fftSize 8192), both per-tick arrays are allocated with
length exactly B, the first click configures the analyser to fftSize 8192,
and once an analyser exists a further click leaves it (hence B) unchanged
for the session. -/
theorem C9_bin_count_half_fft (a : AnalyserNode) (s : AppState) (hasFile : Bool)
    (hs : s.analyser.isSome = true) :
    AnalyserNode.frequencyBinCount { fftSize := 8192 } = 4096
    ∧ (mkFrameArrays a).1.length = a.fftSize / 2
    ∧ (mkFrameArrays a).2.length = a.fftSize / 2
    ∧ (handleClick hasFile s).1.analyser = s.analyser
    ∧ (handleClick true initialState).1.analyser = some { fftSize := 8192 } := by
  have hnone : s.analyser.isNone = false := by
    cases hsa : s.analyser with
    | none => rw [hsa] at hs; simp at hs
    | some a' => rfl
  refine ⟨rfl, ?_, ?_, ?_, rfl⟩
  · simp [mkFrameArrays, AnalyserNode.frequencyBinCount]
  · simp [mkFrameArrays, AnalyserNode.frequencyBinCount]
  · unfold handleClick
    cases hasFile <;> simp [hnone]

/-- C9 witness: a state that already holds an analyser keeps it across a
further click, and the concrete array lengths for fftSize 8192. -/
theorem C9_bin_count_half_fft_witness :
    (AppState.mk (some { fftSize := 16 }) SchedulerState.idle).analyser.isSome = true
    ∧ (AnalyserNode.frequencyBinCount { fftSize := 8192 } = 4096
      ∧ (mkFrameArrays { fftSize := 8192 }).1.length = 8192 / 2
      ∧ (mkFrameArrays { fftSize := 8192 }).2.length = 8192 / 2
      ∧ (handleClick true (AppState.mk (some { fftSize := 16 }) SchedulerState.idle)).1.analyser
          = (AppState.mk (some { fftSize := 16 }) SchedulerState.idle).analyser
      ∧ (handleClick true initialState).1.analyser = some { fftSize := 8192 }) :=
  ⟨rfl, C9_bin_count_half_fft { fftSize := 8192 }
    (AppState.mk (some { fftSize := 16 }) SchedulerState.idle) true rfl⟩

/-- C10, counterexample: the claimed interval [0.965, 1.0346875] does not
contain the multiplier for time-domain byte 255, which is
1 + (255/128 - 1) * 0.035 = 1.0347265625 > 1.0346875. -/
theorem C10_bound_counterexample :
    byteMultiplier 255 = 1.0347265625 ∧ ¬(byteMultiplier 255 ≤ 1.0346875) := by
  norm_num [byteMultiplier, waveformScaleFactor]

/-- C10, amended: for every time-domain byte value v in 0..255, the per-axis
multiplier 1 + (v/128 - 1) * 0.035 — which is exactly the factor the vertex
loop applies, reading only index i mod B — lies in [0.965, 1.0347265625]
(upper endpoint attained at v = 255, not 1.0346875 as claimed) and is
strictly positive, so no nonzero rest component is sent to the origin and
no vertex component changes sign. -/
theorem C10_multiplier_range (v : ℕ) (hv : v ≤ 255) :
    (0.965 : ℚ) ≤ byteMultiplier v
    ∧ byteMultiplier v ≤ 1.0347265625
    ∧ 0 < byteMultiplier v
    ∧ (∀ (td : List ℕ) (i : ℕ),
        vertexMultiplier td i = byteMultiplier (td.getD (i % td.length) 0))
    ∧ (∀ x : ℚ, x ≠ 0 → x * byteMultiplier v ≠ 0)
    ∧ (∀ x : ℚ, 0 < x → 0 < x * byteMultiplier v)
    ∧ (∀ x : ℚ, x < 0 → x * byteMultiplier v < 0) := by
  have hvQ : (v : ℚ) ≤ 255 := by exact_mod_cast hv
  have hv0 : (0 : ℚ) ≤ (v : ℚ) := Nat.cast_nonneg v
  have hlo : (0.965 : ℚ) ≤ byteMultiplier v := by
    rw [byteMultiplier, waveformScaleFactor]
    norm_num
    linarith
  have hhi : byteMultiplier v ≤ 1.0347265625 := by
    rw [byteMultiplier, waveformScaleFactor]
    norm_num
    linarith
  have hpos : 0 < byteMultiplier v := by
    have : (0 : ℚ) < 0.965 := by norm_num
    linarith
  refine ⟨hlo, hhi, hpos, fun td i => rfl, ?_, ?_, ?_⟩
  · exact fun x hx => mul_ne_zero hx (ne_of_gt hpos)
  · exact fun x hx => mul_pos hx hpos
  · exact fun x hx => mul_neg_of_neg_of_pos hx hpos

/-- C10 witness: the bounds at the extreme byte value 255. -/
theorem C10_multiplier_range_witness :
    255 ≤ 255
    ∧ ((0.965 : ℚ) ≤ byteMultiplier 255
      ∧ byteMultiplier 255 ≤ 1.0347265625
      ∧ 0 < byteMultiplier 255
      ∧ (∀ (td : List ℕ) (i : ℕ),
          vertexMultiplier td i = byteMultiplier (td.getD (i % td.length) 0))
      ∧ (∀ x : ℚ, x ≠ 0 → x * byteMultiplier 255 ≠ 0)
      ∧ (∀ x : ℚ, 0 < x → 0 < x * byteMultiplier 255)
      ∧ (∀ x : ℚ, x < 0 → x * byteMultiplier 255 < 0)) :=
  ⟨le_refl 255, C10_multiplier_range 255 (le_refl 255)⟩

/-- C2: for every mesh and every AnalysisFrame whose time-domain samples
are all 128, one `deform` (animate tick) leaves every live position equal
to the rest pose (t = 0 gives multiplier 1), and any further sequence of
such zero-signal ticks reproduces those original live positions exactly. -/
theorem C2_zero_signal_rest (fd td : List ℕ) (frames : List (List ℕ × List ℕ))
    (m : Mesh) (n : ℕ)
    (h1 : m.positions.length = 3 * n) (h2 : (captureRestPose m).length = 3 * n)
    (htd : 0 < td.length) (hall : ∀ v ∈ td, v = 128)
    (hframes : ∀ fr ∈ frames, 0 < (fr.2 : List ℕ).length ∧ ∀ v ∈ fr.2, v = 128) :
    (animateTick fd td m).positions = captureRestPose m
    ∧ (runTicks frames (animateTick fd td m)).positions = captureRestPose m := by
  have hfirst := animateTick_zero_signal fd td m n h1 h2 htd hall
  refine ⟨hfirst, ?_⟩
  exact runTicks_zero_fixed frames (captureRestPose m) n h2 hframes _ hfirst rfl

/-- C2 witness: a 1-vertex mesh under a zero-signal first tick and one more
zero-signal tick. -/
theorem C2_zero_signal_rest_witness :
    (Mesh.mk [1, 2, 3] none 1).positions.length = 3 * 1
    ∧ ((animateTick [] [128] (Mesh.mk [1, 2, 3] none 1)).positions
        = captureRestPose (Mesh.mk [1, 2, 3] none 1)
      ∧ (runTicks [([0], [128])] (animateTick [] [128] (Mesh.mk [1, 2, 3] none 1))).positions
        = captureRestPose (Mesh.mk [1, 2, 3] none 1)) :=
  ⟨rfl, C2_zero_signal_rest [] [128] [([0], [128])] (Mesh.mk [1, 2, 3] none 1) 1
    rfl rfl (by decide) (by decide) (by decide)⟩

/-- C3: the rest pose is captured exactly once, on the first animate call,
from the live positions before any deformation (when no cache exists the
captured pose is the current live array); subsequent calls leave the cache
unchanged for any further sequence of ticks, and every call's vertex loop
reads exactly that cached pose. -/
theorem C3_rest_pose_once (fd td : List ℕ) (frames : List (List ℕ × List ℕ)) (m : Mesh) :
    (animateTick fd td m).originalPositions = some (captureRestPose m)
    ∧ (m.originalPositions = none → captureRestPose m = m.positions)
    ∧ (∀ r, m.originalPositions = some r → captureRestPose m = r)
    ∧ (animateTick fd td m).positions
        = deformLoop (captureRestPose m) td m.positions (m.positions.length / 3)
    ∧ (runTicks frames (animateTick fd td m)).originalPositions = some (captureRestPose m) := by
  refine ⟨rfl, captureRestPose_of_none m, fun r h => captureRestPose_of_some m r h, rfl, ?_⟩
  exact runTicks_originalPositions frames _ _ rfl

/-- C3 witness: a first call on an uncached mesh captures the pre-call live
positions, and they survive a later tick. -/
theorem C3_rest_pose_once_witness :
    (animateTick [0] [200] (Mesh.mk [2, 0, 1] none 1)).originalPositions
      = some (captureRestPose (Mesh.mk [2, 0, 1] none 1))
    ∧ captureRestPose (Mesh.mk [2, 0, 1] none 1) = [2, 0, 1]
    ∧ (runTicks [([7], [31])] (animateTick [0] [200] (Mesh.mk [2, 0, 1] none 1))).originalPositions
      = some (captureRestPose (Mesh.mk [2, 0, 1] none 1)) :=
  ⟨(C3_rest_pose_once [0] [200] [([7], [31])] (Mesh.mk [2, 0, 1] none 1)).1,
    (C3_rest_pose_once [0] [200] [([7], [31])] (Mesh.mk [2, 0, 1] none 1)).2.1 rfl,
    (C3_rest_pose_once [0] [200] [([7], [31])] (Mesh.mk [2, 0, 1] none 1)).2.2.2.2⟩

/-- C6: after a deform call, each vertex's three live components are the
corresponding rest components times one common scalar, and that scalar
(`vertexMultiplier`) is a function of the current frame's time-domain
array and the fixed constants alone — not of previous frames or previous
live positions. -/
theorem C6_live_scalar_multiple (fd td : List ℕ) (m : Mesh) (n : ℕ)
    (h1 : m.positions.length = 3 * n) :
    ∀ i < n, ∀ a < 3,
      ((animateTick fd td m).positions)[i * 3 + a]?
        = some ((captureRestPose m).getD (i * 3 + a) 0 * vertexMultiplier td i) := by
  intro i hi a ha
  show (deformLoop (captureRestPose m) td m.positions (m.positions.length / 3))[i * 3 + a]? = _
  rw [deformLoop_getElem?, if_pos ⟨by omega, by omega⟩]
  have h3 : (i * 3 + a) / 3 = i := by omega
  rw [h3]

/-- C6 witness: a 2-vertex mesh; the scalar is shared by all three axes of
each vertex. -/
theorem C6_live_scalar_multiple_witness :
    (Mesh.mk [1, 2, 3, 4, 5, 6] none 1).positions.length = 3 * 2
    ∧ (∀ i < 2, ∀ a < 3,
        ((animateTick [9] [64, 200] (Mesh.mk [1, 2, 3, 4, 5, 6] none 1)).positions)[i * 3 + a]?
          = some ((captureRestPose (Mesh.mk [1, 2, 3, 4, 5, 6] none 1)).getD (i * 3 + a) 0
              * vertexMultiplier [64, 200] i)) :=
  ⟨rfl, C6_live_scalar_multiple [9] [64, 200] (Mesh.mk [1, 2, 3, 4, 5, 6] none 1) 2 rfl⟩

/-- C7: for any vertex count N and bin count B ≥ 1 (N = B not required),
the vertex loop reads the time-domain array only at index i mod B, which is
always strictly below B, and writes an updated position for all 3N
components of the N vertices. -/
theorem C7_modulo_wrap_safe (N B : ℕ) (hB : 0 < B) (fd td : List ℕ) (hlen : td.length = B)
    (m : Mesh) (hpos : m.positions.length = 3 * N) :
    (∀ i < N, i % B < B)
    ∧ (∀ i : ℕ, vertexMultiplier td i = byteMultiplier (td.getD (i % B) 0))
    ∧ ((animateTick fd td m).positions).length = 3 * N
    ∧ (∀ j < 3 * N, ((animateTick fd td m).positions)[j]?
        = some ((captureRestPose m).getD j 0 * vertexMultiplier td (j / 3))) := by
  refine ⟨fun i _ => Nat.mod_lt _ hB, ?_, ?_, ?_⟩
  · intro i
    rw [← hlen]
    rfl
  · show (deformLoop (captureRestPose m) td m.positions (m.positions.length / 3)).length = 3 * N
    rw [deformLoop_length, hpos]
  · intro j hj
    show (deformLoop (captureRestPose m) td m.positions (m.positions.length / 3))[j]? = _
    rw [deformLoop_getElem?, if_pos ⟨by omega, by omega⟩]

/-- C7 witness: N = 2 vertices with B = 3 bins (N ≠ B). -/
theorem C7_modulo_wrap_safe_witness :
    0 < 3 ∧ ([130, 0, 255] : List ℕ).length = 3
    ∧ (Mesh.mk [1, 2, 3, 4, 5, 6] none 1).positions.length = 3 * 2
    ∧ ((∀ i < 2, i % 3 < 3)
      ∧ (∀ i : ℕ, vertexMultiplier [130, 0, 255] i
          = byteMultiplier (([130, 0, 255] : List ℕ).getD (i % 3) 0))
      ∧ ((animateTick [5] [130, 0, 255] (Mesh.mk [1, 2, 3, 4, 5, 6] none 1)).positions).length
          = 3 * 2
      ∧ (∀ j < 3 * 2,
          ((animateTick [5] [130, 0, 255] (Mesh.mk [1, 2, 3, 4, 5, 6] none 1)).positions)[j]?
            = some ((captureRestPose (Mesh.mk [1, 2, 3, 4, 5, 6] none 1)).getD j 0
                * vertexMultiplier [130, 0, 255] (j / 3)))) :=
  ⟨by decide, rfl, rfl,
    C7_modulo_wrap_safe 2 3 (by decide) [5] [130, 0, 255] rfl
      (Mesh.mk [1, 2, 3, 4, 5, 6] none 1) rfl⟩

/-- C4: the tick's uniform scale is 1 + mean(frequencyBins) * 0.015 where
the mean is the arithmetic mean of all bins; for an all-V frame the average
is exactly V and the scale exactly 1 + V * 0.015 (4.825 at V = 255), and
the scale is stored on the mesh's aggregate scale transform while the
per-vertex waveform deformation is still applied to the positions. -/
theorem C4_uniform_scale (B V : ℕ) (hB : 0 < B) (fd td : List ℕ) (m : Mesh) :
    ((animateTick fd td m).scale = 1 + averageFrequency fd * radiusScaleFactor)
    ∧ averageFrequency (List.replicate B V) = V
    ∧ (animateTick (List.replicate B V) td m).scale = 1 + (V : ℚ) * radiusScaleFactor
    ∧ (animateTick (List.replicate B 255) td m).scale = 4.825
    ∧ (animateTick (List.replicate B V) td m).positions
        = deformLoop (captureRestPose m) td m.positions (m.positions.length / 3) := by
  have hBQ : (B : ℚ) ≠ 0 := Nat.cast_ne_zero.mpr (Nat.pos_iff_ne_zero.mp hB)
  have havg : ∀ W : ℕ, averageFrequency (List.replicate B W) = W := by
    intro W
    rw [averageFrequency, List.sum_replicate, List.length_replicate]
    push_cast [smul_eq_mul]
    exact mul_div_cancel_left₀ _ hBQ
  refine ⟨rfl, havg V, ?_, ?_, rfl⟩
  · show uniformScale (List.replicate B V) = _
    rw [uniformScale, havg V]
  · show uniformScale (List.replicate B 255) = _
    rw [uniformScale, havg 255, radiusScaleFactor]
    norm_num

/-- C4 witness: two bins of value 7, and the 255 endpoint. -/
theorem C4_uniform_scale_witness :
    0 < 2
    ∧ (((animateTick [3, 5] [9] (Mesh.mk [1] none 1)).scale
          = 1 + averageFrequency [3, 5] * radiusScaleFactor)
      ∧ averageFrequency (List.replicate 2 7) = 7
      ∧ (animateTick (List.replicate 2 7) [9] (Mesh.mk [1] none 1)).scale
          = 1 + (7 : ℚ) * radiusScaleFactor
      ∧ (animateTick (List.replicate 2 255) [9] (Mesh.mk [1] none 1)).scale = 4.825
      ∧ (animateTick (List.replicate 2 7) [9] (Mesh.mk [1] none 1)).positions
          = deformLoop (captureRestPose (Mesh.mk [1] none 1)) [9]
              (Mesh.mk [1] none 1).positions ((Mesh.mk [1] none 1).positions.length / 3)) :=
  ⟨by decide, C4_uniform_scale 2 7 (by decide) [3, 5] [9] (Mesh.mk [1] none 1)⟩

/-- C5: the tick's color is a pure function of the frequency bins — the
root-mean-square loudness under `Real.sqrt`, mapped to hue = loudness/255
at fixed saturation 1 and lightness 0.5 (the HSL triple handed to the
renderer's `setHSL`); an all-zero frame gives hue 0 and an all-255 frame
gives hue 1. -/
theorem C5_color_rms (B : ℕ) (hB : 0 < B) (fd : List ℕ) :
    colorFor fd = getColorFromVolume (volume fd)
    ∧ volume fd = Real.sqrt (meanSquare fd)
    ∧ (colorFor fd).1 = volume fd / 255
    ∧ (colorFor fd).2 = (1, 0.5)
    ∧ (colorFor (List.replicate B 0)).1 = 0
    ∧ (colorFor (List.replicate B 255)).1 = 1 := by
  have hBQ : (B : ℚ) ≠ 0 := Nat.cast_ne_zero.mpr (Nat.pos_iff_ne_zero.mp hB)
  have hms : ∀ W : ℕ, meanSquare (List.replicate B W) = (W : ℚ) * W := by
    intro W
    rw [meanSquare, List.map_replicate, List.sum_replicate, List.length_replicate]
    push_cast [smul_eq_mul]
    exact mul_div_cancel_left₀ _ hBQ
  refine ⟨rfl, rfl, rfl, rfl, ?_, ?_⟩
  · show Real.sqrt ((meanSquare (List.replicate B 0) : ℚ) : ℝ) / 255 = 0
    rw [hms 0]
    norm_num
  · show Real.sqrt ((meanSquare (List.replicate B 255) : ℚ) : ℝ) / 255 = 1
    rw [hms 255]
    push_cast
    rw [show (255 : ℝ) * 255 = 255 ^ 2 by ring,
      Real.sqrt_sq (by norm_num : (0 : ℝ) ≤ 255)]
    norm_num

/-- C5 witness: one bin; the all-zero and all-255 endpoint frames. -/
theorem C5_color_rms_witness :
    0 < 1
    ∧ ((colorFor [4] = getColorFromVolume (volume [4]))
      ∧ volume [4] = Real.sqrt (meanSquare [4])
      ∧ (colorFor [4]).1 = volume [4] / 255
      ∧ (colorFor [4]).2 = (1, 0.5)
      ∧ (colorFor (List.replicate 1 0)).1 = 0
      ∧ (colorFor (List.replicate 1 255)).1 = 1) :=
  ⟨by decide, C5_color_rms 1 (by decide) [4]⟩

end MusicVisualizer
